import Mathlib

/-
  Shallow embedding of the vivian-airflow-extensions table-replacement and
  bookmark engine:
    - hooks/extended_postgres_hook.py   (transaction runner, introspection,
      shadow-table builder, swap executor)
    - hooks/extended_snowflake_hook.py  (row generator, staging-file writer)
    - hooks/s3_bookmark_hook.py         (bookmark read/write)
    - operators/snowflake_to_postgres_operator.py (transfer / merge / bookmark
      operators)
  Database effects are modelled by explicit state passing; Python exceptions by
  Except; the single psycopg2 connection by a record with staged / committed
  state and a closed flag.
-/

/- ===================== DEFINITIONS ===================== -/

/-- The state of one database connection as `_run_psql_commands_in_transaction`
uses it: `staged` is the state seen by the open transaction's cursor,
`committed` is the durable state, `closed` records whether `conn.close()` has
run.  `DB` is the abstract database state. -/
structure Conn (DB : Type) where
  staged : DB
  committed : DB
  closed : Bool
deriving DecidableEq

/-- `self.get_conn()`: a fresh connection over durable state `db`. -/
def getConn {DB : Type} (db : DB) : Conn DB :=
  { staged := db, committed := db, closed := false }

/-- `conn.commit()`: the staged transaction state becomes durable. -/
def Conn.commitTx {DB : Type} (c : Conn DB) : Conn DB :=
  { c with committed := c.staged }

/-- `conn.rollback()`: the staged state is discarded. -/
def Conn.rollbackTx {DB : Type} (c : Conn DB) : Conn DB :=
  { c with staged := c.committed }

/-- `conn.close()`. -/
def Conn.closeConn {DB : Type} (c : Conn DB) : Conn DB :=
  { c with closed := true }

/-- A SQL command as its effect on the staged database state; a raising
command returns `Except.error`. -/
abbrev SqlCmd (DB : Type) := DB → Except String DB

/-- The `for cmd in commands: cursor.execute(cmd)` loop of
`_run_psql_commands_in_transaction`: runs commands against the staged state
until one raises, returning the connection at that point together with the
raised exception, if any. -/
def execLoop {DB : Type} (cmds : List (SqlCmd DB)) (c : Conn DB) :
    Conn DB × Option String :=
  match cmds with
  | [] => (c, none)
  | cmd :: rest =>
    match cmd c.staged with
    | Except.ok db2 => execLoop rest { c with staged := db2 }
    | Except.error e => (c, some e)

/-- `ExtendedPostgresHook._run_psql_commands_in_transaction`: open a
connection, execute all commands, commit on success; on any exception roll
back and re-raise it; close the connection in a `finally` block on both
paths. -/
def run_psql_commands_in_transaction {DB : Type} (cmds : List (SqlCmd DB))
    (db : DB) : Except String Unit × Conn DB :=
  let conn := getConn db
  match execLoop cmds conn with
  | (c, none) => (Except.ok (), c.commitTx.closeConn)
  | (c, some e) => (Except.error e, c.rollbackTx.closeConn)

/-- The sequential composition of a command list on a bare database state:
the reference semantics the transaction runner is compared against. -/
def runAll {DB : Type} (cmds : List (SqlCmd DB)) (db : DB) : Except String DB :=
  match cmds with
  | [] => Except.ok db
  | cmd :: rest =>
    match cmd db with
    | Except.ok db2 => runAll rest db2
    | Except.error e => Except.error e

/-- One entry of `self.sequences` as built by
`ExtendedPostgresHook._get_table_sequences`. -/
structure SeqInfo where
  name : String
  column : String
  increment : Int
  minvalue : Int
  maxvalue : Int
  last : Int
  cycle : String
deriving DecidableEq

/-- One entry of `self.constraints` as built by
`ExtendedPostgresHook.get_table_metadata`. -/
structure ConstraintInfo where
  name : String
  definition : String
  ctype : String
deriving DecidableEq

/-- One entry of `self.indexes` as built by
`ExtendedPostgresHook.get_table_metadata`. -/
structure IndexInfo where
  name : String
  definition : String
deriving DecidableEq

/-- `drop sequence if exists "Tmp{seq_name}" cascade;` emitted by
`create_tmp_table`. -/
def dropTmpSequenceCmd (seq : SeqInfo) : String :=
  "drop sequence if exists \"Tmp" ++ seq.name ++ "\" cascade;"

/-- `create sequence "Tmp{seq_name}" increment ... minvalue ... maxvalue ...
last_value ... {cycle};` emitted by `create_tmp_table`: every property of the
introspected sequence, `last_value` included, is interpolated unchanged. -/
def createTmpSequenceCmd (seq : SeqInfo) : String :=
  "create sequence \"Tmp" ++ seq.name ++ "\" increment " ++
    toString seq.increment ++ " minvalue " ++ toString seq.minvalue ++
    " maxvalue " ++ toString seq.maxvalue ++ " last_value " ++
    toString seq.last ++ " " ++ seq.cycle ++ ";"

/-- `alter table "Tmp{table}" alter column ... set default
nextval('"Tmp{seq_name}"');` emitted by `create_tmp_table`. -/
def rebindTmpSequenceCmd (table : String) (seq : SeqInfo) : String :=
  "alter table \"Tmp" ++ table ++ "\" alter column \"" ++ seq.column ++
    "\" set default nextval('\"Tmp" ++ seq.name ++ "\"');"

/-- The `prep_commands` list built by `ExtendedPostgresHook.create_tmp_table`:
drop stale tmp and swap tables, clone the live table, then per identity
sequence a drop / create / rebind triple, then the renamed foreign-key
constraints. -/
def create_tmp_table_commands (table : String) (sequences : List SeqInfo)
    (constraints : List ConstraintInfo) : List String :=
  let tmp_table := "Tmp" ++ table
  let swap_table := "Swap" ++ table
  ["drop table if exists \"" ++ tmp_table ++ "\" cascade;",
   "drop table if exists \"" ++ swap_table ++ "\" cascade;",
   "create table \"" ++ tmp_table ++ "\" (like \"" ++ table ++
     "\" including all);"]
  ++ sequences.flatMap (fun seq =>
      [dropTmpSequenceCmd seq, createTmpSequenceCmd seq,
       rebindTmpSequenceCmd table seq])
  ++ (constraints.filter (fun c => c.ctype == "f")).map (fun c =>
      "alter table \"" ++ tmp_table ++ "\" add constraint \"Tmp" ++ c.name ++
        "\" " ++ c.definition ++ ";")

/-- The introspected metadata held on the hook instance when
`swap_db_tables` runs. -/
structure TableMeta where
  drop_constraint_commands : List String
  drop_index_commands : List String
  sequences : List SeqInfo
  constraints : List ConstraintInfo
  indexes : List IndexInfo
deriving DecidableEq

/-- The `prep_commands` list built by `ExtendedPostgresHook.swap_db_tables`.
With no merge plan (`insert_commands` is `None`): pre-clean, the rename pair,
drop of the displaced table, and re-creation of constraints, indexes and
sequences under their original names (the final per-sequence pair is one
concatenated string, as in the source, where the two f-strings are adjacent
with no comma).  With a merge plan: the plan's commands, then drop of the tmp
table and the tmp sequences. -/
def swap_prep_commands (table : String) (meta : TableMeta)
    (insert_commands : Option (List String)) : List String :=
  let tmp_table := "Tmp" ++ table
  let swap_table := "Swap" ++ table
  match insert_commands with
  | none =>
    meta.drop_constraint_commands
    ++ meta.drop_index_commands
    ++ meta.sequences.map (fun seq =>
        "drop sequence if exists \"" ++ seq.name ++ "\" cascade;")
    ++ ["alter table if exists \"" ++ table ++ "\" rename to \"" ++
          swap_table ++ "\";",
        "alter table if exists \"" ++ tmp_table ++ "\" rename to \"" ++
          table ++ "\";",
        "drop table if exists \"" ++ swap_table ++ "\" cascade;"]
    ++ meta.constraints.map (fun c =>
        "alter table if exists \"" ++ table ++ "\" add constraint \"" ++
          c.name ++ "\" " ++ c.definition ++ ";")
    ++ meta.indexes.map (fun i =>
        "create index \"" ++ i.name ++ "\" on \"" ++ table ++ "\" " ++
          i.definition ++ ";")
    ++ meta.sequences.flatMap (fun seq =>
        ["alter sequence \"Tmp" ++ seq.name ++ "\" rename to \"" ++
           seq.name ++ "\";" ++
         "alter table \"" ++ table ++ "\" alter column \"" ++ seq.column ++
           "\" set default nextval('\"" ++ seq.name ++ "\"');"])
  | some cmds =>
    cmds
    ++ ["drop table if exists \"" ++ tmp_table ++ "\" cascade;"]
    ++ meta.sequences.map (fun seq =>
        "drop sequence if exists \"Tmp" ++ seq.name ++ "\" cascade;")

/-- `ExtendedPostgresHook.swap_db_tables`: builds the promotion command batch
and hands it to `_run_psql_commands_in_transaction`.  `interp` gives each SQL
string its effect on the database state. -/
def swap_db_tables {DB : Type} (interp : String → SqlCmd DB) (table : String)
    (meta : TableMeta) (insert_commands : Option (List String)) (db : DB) :
    Except String Unit × Conn DB :=
  run_psql_commands_in_transaction
    ((swap_prep_commands table meta insert_commands).map interp) db

/-- One introspected row of `information_schema.columns` — (column_name,
data_type, column_default) — as fetched by `_get_table_columns`. -/
structure ColumnInfo where
  name : String
  dtype : String
  cdefault : Option String
deriving DecidableEq

/-- The `columns_list` returned by `ExtendedPostgresHook.get_table_metadata`:
all column names when `include_autoincrement_keys`, otherwise the column
names not bound to an introspected sequence. -/
def get_table_metadata_columns (columns_results : List ColumnInfo)
    (sequences : List SeqInfo) (include_autoincrement_keys : Bool) :
    List String :=
  if include_autoincrement_keys then
    columns_results.map (fun c => c.name)
  else
    (columns_results.filter (fun c =>
      !((sequences.map (fun s => s.column)).contains c.name))).map
      (fun c => c.name)

/-- `SnowflakeToPostgresMergeIncrementalOperator.execute`: the default
`columns_to_update` computed when none is supplied — the columns of
`columns_list` that are not primary-key columns. -/
def default_columns_to_update (columns_list primary_key_columns :
    List String) : List String :=
  columns_list.filter (fun col => !(primary_key_columns.contains col))

/-- The column list of the generated merge insert statement: when
`include_autoincrement_keys` the bare `columns_to_update`, otherwise
`columns_to_update + primary_key_columns`. -/
def merge_insert_column_list (include_autoincrement_keys : Bool)
    (columns_to_update primary_key_columns : List String) : List String :=
  if include_autoincrement_keys then columns_to_update
  else columns_to_update ++ primary_key_columns

/-- `', '.join(['"' + col + '"' for col in cols])`. -/
def quoteJoinColumns (cols : List String) : String :=
  String.intercalate (", ") (cols.map (fun col => "\"" ++ col ++ "\""))

/-- The `columns_to_update_string` of the on-conflict clause:
`"col"=excluded."col"` pairs. -/
def columns_to_update_string (columns_to_update : List String) : String :=
  String.intercalate (", ") (columns_to_update.map (fun col =>
    "\"" ++ col ++ "\"=excluded.\"" ++ col ++ "\""))

/-- The generated `on conflict(...) do update set ...` clause. -/
def on_conflict_clause (primary_key_columns columns_to_update :
    List String) : String :=
  "on conflict(" ++ quoteJoinColumns primary_key_columns ++
    ") do update set " ++ columns_to_update_string columns_to_update

/-- The conditional timestamp guard appended to the upsert:
`where excluded."ts" >= "table"."ts"`. -/
def conditional_timestamp_clause (conditional_psql_timestamp_column
    postgres_table : String) : String :=
  "where excluded.\"" ++ conditional_psql_timestamp_column ++ "\" >= \"" ++
    postgres_table ++ "\".\"" ++ conditional_psql_timestamp_column ++ "\""

/-- The generated merge insert command when `columns_to_update` is set. -/
def merge_insert_command (postgres_table : String)
    (include_autoincrement_keys : Bool)
    (columns_to_update primary_key_columns : List String)
    (conditional_clause : String) : String :=
  let column_list := quoteJoinColumns (merge_insert_column_list
    include_autoincrement_keys columns_to_update primary_key_columns)
  "insert into \"" ++ postgres_table ++ "\" (" ++ column_list ++
    ") select " ++ column_list ++ " from \"" ++ ("Tmp" ++ postgres_table) ++
    "\" " ++ on_conflict_clause primary_key_columns columns_to_update ++
    " " ++ conditional_clause ++ ";"

/-- A row of the target table for the upsert semantics: its primary-key
value, the value of the conditional timestamp column, and the remaining
updatable payload. -/
structure PgRow where
  key : Int
  ts : Int
  payload : String
deriving DecidableEq

/-- Semantics of the guard emitted by `conditional_timestamp_clause`:
`excluded."ts" >= "table"."ts"` — the incoming (excluded) row's timestamp is
greater than or equal to the existing row's. -/
def upsertGuardHolds (incoming existing : PgRow) : Bool :=
  existing.ts ≤ incoming.ts

/-- Semantics of the generated `insert … on conflict(pk) do update set …
where <guard>` for one incoming row: a conflicting row is overwritten exactly
when the guard holds; with no conflict the row is inserted. -/
def upsertOneRow (table : List PgRow) (incoming : PgRow) : List PgRow :=
  if table.any (fun r => r.key == incoming.key) then
    table.map (fun r =>
      if r.key == incoming.key && upsertGuardHolds incoming r then incoming
      else r)
  else table ++ [incoming]

/-- A Python `datetime` value, as far as `strftime('%Y-%m-%d %H:%M:%S')`
observes it. -/
structure PyDatetime where
  year : Nat
  month : Nat
  day : Nat
  hour : Nat
  minute : Nat
  second : Nat
deriving DecidableEq

/-- Two-digit zero padding of a field. -/
def pad2 (n : Nat) : String :=
  if n < 10 then "0" ++ toString n else toString n

/-- `t.strftime('%Y-%m-%d %H:%M:%S')`. -/
def strftimeYmdHms (t : PyDatetime) : String :=
  toString t.year ++ "-" ++ pad2 t.month ++ "-" ++ pad2 t.day ++ " " ++
    pad2 t.hour ++ ":" ++ pad2 t.minute ++ ":" ++ pad2 t.second

/-- A Python scalar handed to `_save_next_bookmark`: the integer or datetime
maximum computed by the bookmark query. -/
inductive PyScalar where
  | pyInt (n : Int)
  | pyDatetime (t : PyDatetime)
deriving DecidableEq

/-- `bookmark.strftime('%Y-%m-%d %H:%M:%S')`: formats a datetime; on an
integer value Python raises AttributeError (int has no strftime method). -/
def PyScalar.strftimeFmt : PyScalar → Except String String
  | PyScalar.pyDatetime t => Except.ok (strftimeYmdHms t)
  | PyScalar.pyInt _ =>
    Except.error ("AttributeError: int object has no attribute strftime")

/-- `S3BookmarkHook._save_next_bookmark`: a `None` bookmark is not saved (the
store is unchanged); otherwise the bookmark is formatted with `strftime` —
unconditionally — and the result written to the S3 key.  `store` is the
content of the S3 object, if present. -/
def save_next_bookmark (bookmark : Option PyScalar) (store : Option String) :
    Except String (Option String) :=
  match bookmark with
  | none => Except.ok store
  | some b =>
    match b.strftimeFmt with
    | Except.error e => Except.error e
    | Except.ok s => Except.ok (some s)

/-- A value returned by `_get_latest_bookmark`: the Python function returns
either the int `0` or a string. -/
inductive BookmarkVal where
  | intVal (n : Int)
  | strVal (s : String)
deriving DecidableEq

/-- `S3BookmarkHook._get_latest_bookmark`: with a stored object, its stripped
content, wrapped in single quotes for timestamp keys; with no object, `0` for
int keys and the quoted Unix epoch for timestamp keys (any other key type
leaves `key` unbound and raises at the return). -/
def get_latest_bookmark (incremental_key_type : String)
    (store : Option String) : Except String BookmarkVal :=
  match store with
  | some content =>
    let key := content.trim
    if incremental_key_type == "timestamp" then
      Except.ok (BookmarkVal.strVal ("'" ++ key ++ "'"))
    else Except.ok (BookmarkVal.strVal key)
  | none =>
    if incremental_key_type == "int" then Except.ok (BookmarkVal.intVal 0)
    else if incremental_key_type == "timestamp" then
      Except.ok (BookmarkVal.strVal ("'1970-01-01 00:00:00'"))
    else Except.error ("UnboundLocalError: key")

/-- `select max(k) as "bookmark"` over the filtered keys: `None` when the
result set is empty. -/
def maxKey : List Int → Option Int
  | [] => none
  | k :: ks =>
    match maxKey ks with
    | none => some k
    | some m => some (max k m)

/-- The filter the bookmark operator splices into the source query:
`where incremental_key > latest_bookmark`. -/
def filteredKeys (bookmark : Int) (rows : List Int) : List Int :=
  rows.filter (fun k => bookmark < k)

/-- Scalar-level model of one run of
`SnowflakeToPostgresBookmarkOperator.execute`: read the stored scalar
(defaulting to 0 / the epoch when absent), keep only source keys strictly
above it, compute their maximum as the bookmark query does, and persist it
unless it is `None` (in which case `_save_next_bookmark` leaves the store
unchanged). -/
def bookmarkRun (store : Option Int) (rows : List Int) : Option Int :=
  let latest := store.getD 0
  match maxKey (filteredKeys latest rows) with
  | none => store
  | some m => some m

/-- Ordering on stored bookmark values: an absent store is below
everything. -/
def bmLe : Option Int → Option Int → Prop
  | none, _ => True
  | some _, none => False
  | some v, some w => v ≤ w

/-- A Python dict as an insertion-ordered association list. -/
abbrev PyDict := List (String × Option String)

/-- The Python heap, as far as the row generator needs it: the list of
allocated dict objects, addressed by allocation index. -/
abbrev PyHeap := List PyDict

/-- Dereference a heap address. -/
def heapGet (h : PyHeap) (a : Nat) : Option PyDict := h[a]?

/-- Mutate the object at a heap address in place. -/
def heapSet (h : PyHeap) (a : Nat) (d : PyDict) : PyHeap := h.set a d

/-- `dict.fromkeys(column_names)`: every column mapped to `None`. -/
def pyDictFromKeys (keys : List String) : PyDict :=
  keys.map (fun k => (k, none))

/-- `d[k] = v` on a Python dict: overwrite in place when the key exists,
append otherwise. -/
def pyDictSet (d : PyDict) (k : String) (v : Option String) : PyDict :=
  if d.any (fun p => p.1 == k) then
    d.map (fun p => if p.1 == k then (k, v) else p)
  else d ++ [(k, v)]

/-- `row_dict.update(zip(column_names, row))`. -/
def pyDictUpdate (d : PyDict) (kvs : List (String × String)) : PyDict :=
  kvs.foldl (fun acc kv => pyDictSet acc kv.1 (some kv.2)) d

/-- The `while True / fetchmany / yield` loop of `generate_rows_from_table`,
operating on the single `row_dict` object at heap address `a`: each source
row updates that object in place and yields a reference to it together with
`column_names`.  Returns the final heap and the yields. -/
def genRowsLoop (column_names : List String) (rows : List (List String))
    (h : PyHeap) (a : Nat) : PyHeap × List (Nat × List String) :=
  match rows with
  | [] => (h, [])
  | row :: rest =>
    let d := (heapGet h a).getD []
    let h2 := heapSet h a (pyDictUpdate d (column_names.zip row))
    let res := genRowsLoop column_names rest h2 a
    (res.1, (a, column_names) :: res.2)

/-- `ExtendedSnowflakeHook.generate_rows_from_table`: allocates `row_dict`
once — `dict.fromkeys(column_names)` before the loop — then yields it,
mutated in place, once per source row. -/
def generate_rows_from_table (column_names : List String)
    (rows : List (List String)) (h : PyHeap) :
    PyHeap × List (Nat × List String) :=
  let h1 := h ++ [pyDictFromKeys column_names]
  genRowsLoop column_names rows h1 h.length

/-- A record written to the staging file: the header row or one data row. -/
inductive CsvRecord where
  | headerRec (headers : List String)
  | rowRec (row : PyDict)
deriving DecidableEq

/-- `str(value)` for one cell. -/
def pyStrOfCell : Option String → String
  | some s => s
  | none => "None"

/-- The array-literal rewrite applied to array fields when the destination is
postgres: `row[key] = '\x7b' + str(value)[1:-1] + '\x7d'`. -/
def transformArrayFields (array_fields : List String) (row : PyDict) :
    PyDict :=
  row.map (fun kv =>
    if array_fields.contains kv.1 then
      (kv.1, some ("\x7b" ++ ((pyStrOfCell kv.2).drop 1).dropRight 1 ++
        "\x7d"))
    else kv)

/-- The writer loop of `save_snowflake_results_to_tmp_file`: the header row is
written before the first yielded row, then every row is written; returns the
file contents and the final `headers_written` flag. -/
def saveResultsLoop (array_fields : List String)
    (yields : List (PyDict × List String)) (file : List CsvRecord)
    (headers_written : Bool) : List CsvRecord × Bool :=
  match yields with
  | [] => (file, headers_written)
  | (row, headers) :: rest =>
    let file1 := if headers_written then file
      else file ++ [CsvRecord.headerRec headers]
    let row2 := transformArrayFields array_fields row
    saveResultsLoop array_fields rest (file1 ++ [CsvRecord.rowRec row2]) true

/-- `ExtendedSnowflakeHook.save_snowflake_results_to_tmp_file` (postgres
destination): consumes the row generator, writes the header and the rows,
and returns `False` when no row was yielded — in which case nothing at all
was written — and `True` otherwise. -/
def save_snowflake_results_to_tmp_file (array_fields : List String)
    (yields : List (PyDict × List String)) : List CsvRecord × Bool :=
  saveResultsLoop array_fields yields [] false

/-- The database-touching steps of `SnowflakeToPostgresOperator.execute`. -/
inductive DbStep where
  | getTableMetadataStep
  | createTmpTableStep
  | writeToDbStep
  | swapDbTablesStep
deriving DecidableEq

/-- `SnowflakeToPostgresOperator.execute`: write the staging file; when the
query returned no data, log and return immediately; otherwise introspect,
build the shadow table, bulk-load it and swap. -/
def snowflake_to_postgres_execute (array_fields : List String)
    (yields : List (PyDict × List String)) : List DbStep :=
  let res := save_snowflake_results_to_tmp_file array_fields yields
  if !res.2 then []
  else [DbStep.getTableMetadataStep, DbStep.createTmpTableStep,
    DbStep.writeToDbStep, DbStep.swapDbTablesStep]

/-- Applying a sequence of database steps to a database state. -/
def applyDbSteps {DB : Type} (stepEffect : DbStep → DB → DB) (db : DB)
    (steps : List DbStep) : DB :=
  steps.foldl (fun d s => stepEffect s d) db

/- ===================== THEOREMS ===================== -/

theorem execLoop_committed {DB : Type} (cmds : List (SqlCmd DB))
    (c : Conn DB) : (execLoop cmds c).1.committed = c.committed := by
  induction cmds generalizing c with
  | nil => rfl
  | cons cmd rest ih =>
    simp only [execLoop]
    cases cmd c.staged with
    | ok db2 => exact ih _
    | error e => rfl

theorem execLoop_runAll {DB : Type} (cmds : List (SqlCmd DB)) (c : Conn DB) :
    (∀ d, runAll cmds c.staged = Except.ok d →
      (execLoop cmds c).2 = none ∧ (execLoop cmds c).1.staged = d) ∧
    (∀ e, runAll cmds c.staged = Except.error e →
      (execLoop cmds c).2 = some e) := by
  induction cmds generalizing c with
  | nil =>
    constructor
    · intro d hd
      simp only [runAll] at hd
      cases hd
      exact ⟨rfl, rfl⟩
    · intro e he
      simp only [runAll] at he
      exact Except.noConfusion he
  | cons cmd rest ih =>
    constructor
    · intro d hd
      simp only [runAll] at hd
      simp only [execLoop]
      cases hcmd : cmd c.staged with
      | ok db2 =>
        rw [hcmd] at hd
        exact (ih { c with staged := db2 }).1 d hd
      | error e =>
        rw [hcmd] at hd
        cases hd
    · intro e he
      simp only [runAll] at he
      simp only [execLoop]
      cases hcmd : cmd c.staged with
      | ok db2 =>
        rw [hcmd] at he
        exact (ih { c with staged := db2 }).2 e he
      | error e2 =>
        rw [hcmd] at he
        cases he
        rfl

theorem run_psql_spec {DB : Type} (cmds : List (SqlCmd DB)) (db : DB) :
    (run_psql_commands_in_transaction cmds db).2.closed = true ∧
    (∀ d, runAll cmds db = Except.ok d →
      run_psql_commands_in_transaction cmds db =
        (Except.ok (), { staged := d, committed := d, closed := true })) ∧
    (∀ e, runAll cmds db = Except.error e →
      (run_psql_commands_in_transaction cmds db).1 = Except.error e ∧
      (run_psql_commands_in_transaction cmds db).2.committed = db) := by
  have hcomm := execLoop_committed cmds (getConn db)
  have hra := execLoop_runAll cmds (getConn db)
  rcases hel : execLoop cmds (getConn db) with ⟨c, opt⟩
  rw [hel] at hcomm hra
  simp only [getConn] at hcomm hra
  refine ⟨?_, ?_, ?_⟩
  · simp only [run_psql_commands_in_transaction, hel]
    cases opt <;> rfl
  · intro d hd
    obtain ⟨hnone, hstaged⟩ := hra.1 d hd
    have hopt : opt = none := hnone
    have hst : c.staged = d := hstaged
    subst hopt
    simp only [run_psql_commands_in_transaction, hel, Conn.commitTx,
      Conn.closeConn, hst]
  · intro e he
    have hopt : opt = some e := hra.2 e he
    have hc : c.committed = db := hcomm
    subst hopt
    simp only [run_psql_commands_in_transaction, hel, Conn.rollbackTx,
      Conn.closeConn]
    exact ⟨trivial, hc⟩

/-- C1: every promotion batch run by the swap executor is all-or-nothing:
if every command succeeds its composite effect is committed; if any command
raises, the committed (live) database state is left exactly as it was and the
original exception is re-raised to the caller; on both paths the connection
ends closed. -/
theorem swap_db_tables_atomic {DB : Type} (interp : String → SqlCmd DB)
    (table : String) (meta : TableMeta)
    (insert_commands : Option (List String)) (db : DB) :
    (swap_db_tables interp table meta insert_commands db).2.closed = true ∧
    (∀ d, runAll ((swap_prep_commands table meta insert_commands).map interp)
        db = Except.ok d →
      swap_db_tables interp table meta insert_commands db =
        (Except.ok (), { staged := d, committed := d, closed := true })) ∧
    (∀ e, runAll ((swap_prep_commands table meta insert_commands).map interp)
        db = Except.error e →
      (swap_db_tables interp table meta insert_commands db).1 =
        Except.error e ∧
      (swap_db_tables interp table meta insert_commands db).2.committed =
        db) :=
  run_psql_spec ((swap_prep_commands table meta insert_commands).map interp) db

/-- Witness for C1 at a concrete failing batch: an interpreter that raises on
the first command rolls the swap back (committed state still `0`), re-raises
the exception, and leaves the connection closed. -/
theorem swap_db_tables_atomic_witness :
    ((swap_db_tables (fun _ _ => Except.error ("boom")) ("t")
        ⟨[], [], [], [], []⟩ none (0 : Int)).1 = Except.error ("boom") ∧
      (swap_db_tables (fun _ _ => Except.error ("boom")) ("t")
        ⟨[], [], [], [], []⟩ none (0 : Int)).2.committed = 0) ∧
    (swap_db_tables (fun _ _ => Except.error ("boom")) ("t")
        ⟨[], [], [], [], []⟩ none (0 : Int)).2.closed = true :=
  ⟨(swap_db_tables_atomic (fun _ _ => Except.error ("boom")) ("t")
      ⟨[], [], [], [], []⟩ none (0 : Int)).2.2 ("boom") rfl,
    (swap_db_tables_atomic (fun _ _ => Except.error ("boom")) ("t")
      ⟨[], [], [], [], []⟩ none (0 : Int)).1⟩

theorem infix_flatMap_of_mem {α β : Type} (f : α → List β) {a : α}
    {l : List α} (h : a ∈ l) : f a <:+: l.flatMap f := by
  obtain ⟨s, t, rfl⟩ := List.append_of_mem h
  exact ⟨s.flatMap f, t.flatMap f, by simp⟩

/-- C7: for every identity sequence found by introspection, the shadow-table
build emits, contiguously and in order, the drop-if-exists of the prefixed
shadow sequence, the create carrying the original's increment / minvalue /
maxvalue / last_value / cycle unchanged, and the rebind of the shadow table's
column default to the shadow sequence. -/
theorem create_tmp_table_clones_sequences (table : String)
    (sequences : List SeqInfo) (constraints : List ConstraintInfo)
    {seq : SeqInfo} (h : seq ∈ sequences) :
    [dropTmpSequenceCmd seq, createTmpSequenceCmd seq,
      rebindTmpSequenceCmd table seq]
      <:+: create_tmp_table_commands table sequences constraints := by
  have hmid : [dropTmpSequenceCmd seq, createTmpSequenceCmd seq,
      rebindTmpSequenceCmd table seq]
      <:+: sequences.flatMap (fun s => [dropTmpSequenceCmd s,
        createTmpSequenceCmd s, rebindTmpSequenceCmd table s]) :=
    infix_flatMap_of_mem (fun s => [dropTmpSequenceCmd s,
      createTmpSequenceCmd s, rebindTmpSequenceCmd table s]) h
  refine hmid.trans ?_
  exact ⟨["drop table if exists \"" ++ ("Tmp" ++ table) ++ "\" cascade;",
      "drop table if exists \"" ++ ("Swap" ++ table) ++ "\" cascade;",
      "create table \"" ++ ("Tmp" ++ table) ++ "\" (like \"" ++ table ++
        "\" including all);"],
    (constraints.filter (fun c => c.ctype == "f")).map (fun c =>
      "alter table \"" ++ ("Tmp" ++ table) ++ "\" add constraint \"Tmp" ++
        c.name ++ "\" " ++ c.definition ++ ";"),
    by simp only [create_tmp_table_commands]⟩

/-- Witness for C7 at a concrete sequence: the drop / create / rebind triple
for the sequence (with its last_value 41 preserved) is an infix of the emitted
batch. -/
theorem create_tmp_table_clones_sequences_witness :
    [dropTmpSequenceCmd ⟨"OrdersIdSeq", "id", 1, 1, 1000, 41, " cycle"⟩,
      createTmpSequenceCmd ⟨"OrdersIdSeq", "id", 1, 1, 1000, 41, " cycle"⟩,
      rebindTmpSequenceCmd ("Orders")
        ⟨"OrdersIdSeq", "id", 1, 1, 1000, 41, " cycle"⟩]
      <:+: create_tmp_table_commands ("Orders")
        [⟨"OrdersIdSeq", "id", 1, 1, 1000, 41, " cycle"⟩] [] :=
  create_tmp_table_clones_sequences ("Orders") _ _ (List.mem_singleton.mpr rfl)

/-- C8: when primary keys are supplied but no explicit update-column list,
the default update set is exactly the introspected column list minus the
primary-key columns — all non-primary-key columns, no more, no fewer. -/
theorem default_update_columns_are_non_pk (columns_results : List ColumnInfo)
    (sequences : List SeqInfo) (include_autoincrement_keys : Bool)
    (primary_key_columns : List String) (col : String) :
    col ∈ default_columns_to_update
        (get_table_metadata_columns columns_results sequences
          include_autoincrement_keys) primary_key_columns ↔
      (col ∈ get_table_metadata_columns columns_results sequences
          include_autoincrement_keys ∧ col ∉ primary_key_columns) := by
  simp [default_columns_to_update, List.mem_filter]

/-- C2 fails as stated: with `include_autoincrement_keys=True` and
`columns_to_update` restricted to `["status"]`, the primary-key column
`"id"` is absent from the generated insert's column list. -/
theorem merge_insert_column_list_counterexample :
    ¬ ("id" ∈ merge_insert_column_list true ["status"] ["id"]) := by
  decide

/-- C2 amended: when `include_autoincrement_keys` is False, the column list
of the generated insert includes every primary-key column even though the
primary-key columns are not in `columns_to_update`; when the flag is True the
column list is exactly `columns_to_update`. -/
theorem merge_insert_includes_pk_without_autoincrement
    (columns_to_update primary_key_columns : List String) (col : String)
    (h : col ∈ primary_key_columns) :
    col ∈ merge_insert_column_list false columns_to_update
        primary_key_columns ∧
      merge_insert_column_list true columns_to_update primary_key_columns =
        columns_to_update := by
  refine ⟨?_, rfl⟩
  simp [merge_insert_column_list, h]

/-- Witness for the amended C2: with the flag off, `"id"` is in the column
list even though `columns_to_update = ["status"]`. -/
theorem merge_insert_includes_pk_without_autoincrement_witness :
    ("id" ∈ (["id"] : List String)) ∧
      ("id" ∈ merge_insert_column_list false ["status"] ["id"] ∧
        merge_insert_column_list true ["status"] ["id"] = ["status"]) :=
  ⟨by decide,
    merge_insert_includes_pk_without_autoincrement ["status"] ["id"] ("id")
      (by decide)⟩

/-- C3: under the generated timestamp guard a conflicting existing row is
only overwritten when the incoming row's timestamp is greater than or equal
to the existing one: if every conflicting row is strictly newer than the
incoming row the table is unchanged, and if every conflicting row is strictly
older each conflicting row is overwritten by the incoming row. -/
theorem upsert_timestamp_guard (table : List PgRow) (incoming : PgRow)
    (hconf : table.any (fun r => r.key == incoming.key) = true) :
    ((∀ r ∈ table, r.key = incoming.key → incoming.ts < r.ts) →
      upsertOneRow table incoming = table) ∧
    ((∀ r ∈ table, r.key = incoming.key → r.ts < incoming.ts) →
      upsertOneRow table incoming =
        table.map (fun r => if r.key == incoming.key then incoming
          else r)) := by
  constructor
  · intro hold
    have hmap : table.map (fun r =>
        if r.key == incoming.key && upsertGuardHolds incoming r then incoming
        else r) = table := by
      conv_rhs => rw [← List.map_id table]
      refine List.map_congr_left (fun r hr => ?_)
      by_cases hk : r.key = incoming.key
      · have hg : upsertGuardHolds incoming r = false := by
          have hlt := hold r hr hk
          simp only [upsertGuardHolds, decide_eq_false_iff_not]
          omega
        simp [hg]
      · simp [hk]
    simp only [upsertOneRow, hconf, if_true]
    exact hmap
  · intro hnew
    simp only [upsertOneRow, hconf, if_true]
    refine List.map_congr_left (fun r hr => ?_)
    by_cases hk : r.key = incoming.key
    · have hg : upsertGuardHolds incoming r = true := by
        have hlt := hnew r hr hk
        simp only [upsertGuardHolds, decide_eq_true_eq]
        omega
      simp [hk, hg]
    · simp [hk]

/-- Witness for C3: against an existing row with timestamp 5, an incoming
row with timestamp 4 leaves the table unchanged, one with timestamp 6
overwrites it. -/
theorem upsert_timestamp_guard_witness :
    upsertOneRow [⟨1, 5, "pending"⟩] ⟨1, 4, "shipped"⟩ =
        [⟨1, 5, "pending"⟩] ∧
      upsertOneRow [⟨1, 5, "pending"⟩] ⟨1, 6, "shipped"⟩ =
        [⟨1, 6, "shipped"⟩] := by
  constructor
  · exact (upsert_timestamp_guard [⟨1, 5, "pending"⟩] ⟨1, 4, "shipped"⟩
      (by decide)).1 (by decide)
  · have h := (upsert_timestamp_guard [⟨1, 5, "pending"⟩] ⟨1, 6, "shipped"⟩
      (by decide)).2 (by decide)
    rw [h]
    decide

/-- C4 (code bug in `_save_next_bookmark`): a non-None bookmark is
unconditionally formatted with `strftime`, which integers do not have, so for
`incremental_key_type='int'` the integer high-water mark raises
AttributeError and is never persisted. -/
theorem save_next_bookmark_int_raises (n : Int) (store : Option String) :
    save_next_bookmark (some (PyScalar.pyInt n)) store =
      Except.error ("AttributeError: int object has no attribute strftime")
    := rfl

/-- C6: an absent bookmark reads as `0` for int keys and as the quoted Unix
epoch for timestamp keys; a present bookmark reads as the stored content,
wrapped in single quotes for timestamp keys and raw for int keys. -/
theorem get_latest_bookmark_defaults_and_quoting :
    get_latest_bookmark ("int") none = Except.ok (BookmarkVal.intVal 0) ∧
    get_latest_bookmark ("timestamp") none =
      Except.ok (BookmarkVal.strVal ("'1970-01-01 00:00:00'")) ∧
    (∀ s : String, get_latest_bookmark ("timestamp") (some s) =
      Except.ok (BookmarkVal.strVal ("'" ++ s.trim ++ "'"))) ∧
    (∀ s : String, get_latest_bookmark ("int") (some s) =
      Except.ok (BookmarkVal.strVal s.trim)) :=
  ⟨rfl, rfl, fun _ => rfl, fun _ => rfl⟩

theorem maxKey_mem {l : List Int} {m : Int} (h : maxKey l = some m) :
    m ∈ l := by
  induction l generalizing m with
  | nil => simp [maxKey] at h
  | cons k ks ih =>
    simp only [maxKey] at h
    cases hks : maxKey ks with
    | none =>
      rw [hks] at h
      cases h
      exact List.mem_cons_self _ _
    | some m2 =>
      rw [hks] at h
      cases h
      rcases max_choice k m2 with hm | hm
      · rw [hm]; exact List.mem_cons_self _ _
      · rw [hm]; exact List.mem_cons_of_mem _ (ih hks)

theorem bmLe_refl (s : Option Int) : bmLe s s := by
  cases s <;> simp [bmLe]

theorem bmLe_trans {a b c : Option Int} (h1 : bmLe a b) (h2 : bmLe b c) :
    bmLe a c := by
  cases a with
  | none => trivial
  | some v =>
    cases b with
    | none => exact absurd h1 (by simp [bmLe])
    | some w =>
      cases c with
      | none => exact absurd h2 (by simp [bmLe])
      | some u =>
        simp only [bmLe] at *
        omega

theorem bookmarkRun_mono (store : Option Int) (rows : List Int) :
    bmLe store (bookmarkRun store rows) := by
  simp only [bookmarkRun]
  cases hm : maxKey (filteredKeys (store.getD 0) rows) with
  | none => exact bmLe_refl store
  | some m =>
    have hmem := maxKey_mem hm
    have hgt : store.getD 0 < m := by
      simp only [filteredKeys, List.mem_filter, decide_eq_true_eq] at hmem
      exact hmem.2
    cases store with
    | none => simp [bmLe]
    | some v =>
      simp only [Option.getD] at hgt
      simp only [bmLe]
      omega

/-- C5: over any sequence of bookmark-coordinated runs the persisted
bookmark is non-decreasing; a run whose filtered result set is empty (so the
computed maximum is None) leaves the store unchanged; and
`_save_next_bookmark` applied to `None` never writes. -/
theorem bookmark_monotone (runs : List (List Int)) (store : Option Int) :
    bmLe store (runs.foldl bookmarkRun store) ∧
    (∀ rows, filteredKeys (store.getD 0) rows = [] →
      bookmarkRun store rows = store) ∧
    (∀ s : Option String, save_next_bookmark none s = Except.ok s) := by
  refine ⟨?_, ?_, fun _ => rfl⟩
  · induction runs generalizing store with
    | nil => exact bmLe_refl store
    | cons r rs ih =>
      simp only [List.foldl_cons]
      exact bmLe_trans (bookmarkRun_mono store r) (ih _)
  · intro rows hrows
    simp [bookmarkRun, hrows, maxKey]

/-- Witness for C5: runs over sources `[9, 8]` then `[]` advance the stored
bookmark monotonically from 7, and a run whose keys are all ≤ the stored
bookmark leaves it unchanged. -/
theorem bookmark_monotone_witness :
    bmLe (some 7) ([[9, 8], []].foldl bookmarkRun (some 7)) ∧
      bookmarkRun (some 7) [3, 7] = some 7 := by
  constructor
  · exact (bookmark_monotone [[9, 8], []] (some 7)).1
  · exact (bookmark_monotone [] (some 7)).2.1 [3, 7] (by decide)

theorem genRowsLoop_spec (column_names : List String)
    (rows : List (List String)) (h : PyHeap) (a : Nat) (d : PyDict)
    (ha : heapGet h a = some d) :
    (∀ y ∈ (genRowsLoop column_names rows h a).2, y = (a, column_names)) ∧
    (genRowsLoop column_names rows h a).2.length = rows.length ∧
    heapGet (genRowsLoop column_names rows h a).1 a =
      some (rows.foldl (fun acc row =>
        pyDictUpdate acc (column_names.zip row)) d) := by
  induction rows generalizing h d with
  | nil =>
    exact ⟨by simp [genRowsLoop], by simp [genRowsLoop],
      by simp [genRowsLoop, ha]⟩
  | cons row rest ih =>
    have hlt : a < h.length := by
      rcases List.getElem?_eq_some_iff.mp ha with ⟨hl, _⟩
      exact hl
    have ha2 : heapGet (heapSet h a (pyDictUpdate d (column_names.zip row)))
        a = some (pyDictUpdate d (column_names.zip row)) := by
      simp [heapGet, heapSet, List.getElem?_set_self hlt]
    have hd : (heapGet h a).getD [] = d := by simp [ha]
    obtain ⟨hy, hlen, hfin⟩ := ih
      (heapSet h a (pyDictUpdate d (column_names.zip row)))
      (pyDictUpdate d (column_names.zip row)) ha2
    refine ⟨?_, ?_, ?_⟩
    · intro y hyy
      simp only [genRowsLoop, hd, List.mem_cons] at hyy
      rcases hyy with hyy | hyy
      · exact hyy
      · exact hy y hyy
    · simp only [genRowsLoop, hd, List.length_cons]
      rw [hlen]
    · simp only [genRowsLoop, hd, List.foldl_cons]
      exact hfin

/-- C9: every yield of `generate_rows_from_table` is the same single
`row_dict` object — all yielded references point at one heap address — so a
consumer that retains an earlier yielded row observes, once the generator has
finished, the values of the most recently yielded row. -/
theorem generate_rows_aliasing (column_names : List String)
    (rows : List (List String)) (h : PyHeap) :
    (∀ y ∈ (generate_rows_from_table column_names rows h).2,
      y = (h.length, column_names)) ∧
    (generate_rows_from_table column_names rows h).2.length = rows.length ∧
    (∀ y ∈ (generate_rows_from_table column_names rows h).2,
      heapGet (generate_rows_from_table column_names rows h).1 y.1 =
        some (rows.foldl (fun acc row =>
          pyDictUpdate acc (column_names.zip row))
          (pyDictFromKeys column_names))) := by
  have ha : heapGet (h ++ [pyDictFromKeys column_names]) h.length =
      some (pyDictFromKeys column_names) := by
    simp [heapGet, List.getElem?_concat_length]
  obtain ⟨hy, hlen, hfin⟩ := genRowsLoop_spec column_names rows
    (h ++ [pyDictFromKeys column_names]) h.length
    (pyDictFromKeys column_names) ha
  refine ⟨fun y hyy => hy y hyy, hlen, fun y hyy => ?_⟩
  have hey := hy y hyy
  rw [hey]
  exact hfin

/-- Witness for C9: with one column and two source rows, the address yielded
first dereferences, after the generator ends, to the second row's values. -/
theorem generate_rows_aliasing_witness :
    heapGet (generate_rows_from_table ["a"] [["1"], ["2"]] []).1 0 =
      some [("a", some "2")] := by
  have h := (generate_rows_aliasing ["a"] [["1"], ["2"]] []).2.2
    (0, ["a"]) (by decide)
  have h2 : some ([["1"], ["2"]].foldl (fun acc row =>
      pyDictUpdate acc ((["a"] : List String).zip row))
      (pyDictFromKeys ["a"])) =
      some ([("a", some "2")] : PyDict) := by decide
  exact h.trans h2

/-- C10: a transfer whose source query yields zero rows writes nothing to the
staging file (not even a header row), the writer returns False, the operator
performs no database step — no introspection, no shadow table, no bulk load,
no swap — and the target database state is unchanged. -/
theorem empty_source_no_effect {DB : Type} (stepEffect : DbStep → DB → DB)
    (db : DB) (array_fields column_names : List String) (h : PyHeap) :
    (generate_rows_from_table column_names [] h).2 = [] ∧
    save_snowflake_results_to_tmp_file array_fields [] = ([], false) ∧
    snowflake_to_postgres_execute array_fields [] = [] ∧
    applyDbSteps stepEffect db
      (snowflake_to_postgres_execute array_fields []) = db :=
  ⟨rfl, rfl, rfl, rfl⟩
